import Mathlib

/-!
Verification development for the tick-driven position/risk engine in
`data-science.py`.  The Python source is shallowly embedded: prices and
sizes become rationals, Python dicts for ticks become records of `Option`
fields (a missing dict key is `none`), in-place mutation of the active
position list becomes explicit state passing, and code that can raise a
Python exception returns `Except String`.
-/

set_option maxHeartbeats 1000000

namespace DataScience

/-- Validated tick: `symbol`, `price`, `timestamp` all present
(the three required fields of `process_tick_data`). -/
structure Tick where
  symbol : String
  price : ℚ
  timestamp : ℤ
deriving DecidableEq, Repr

/-- Raw tick as a Python dict: any of the required keys may be absent. -/
structure RawTick where
  symbol : Option String
  price : Option ℚ
  timestamp : Option ℤ
deriving DecidableEq, Repr

/-- Embedding of the `Position` dataclass (lines 31-41 of the source).
`current_price` defaults to `None` in the source, hence `Option ℚ`. -/
structure Position where
  symbol : String
  entry_price : ℚ
  entry_time : ℤ
  direction : ℤ
  size : ℚ
  strategy_id : String
  current_price : Option ℚ := none
  max_favorable_excursion : ℚ := 0
  max_adverse_excursion : ℚ := 0
deriving DecidableEq, Repr

/-- Strategy signal: the dict `\x7b'action': ..., 'size': ...\x7d` returned by a
strategy function. -/
structure Signal where
  action : String
  size : ℚ
deriving DecidableEq, Repr

/-- A registered strategy function.  It may raise (model: `Except.error`)
or return `None` (model: `Except.ok none`) or a signal. -/
def StrategyFunc : Type :=
  Tick → List Position → Except String (Option Signal)

/-- One entry of `ExecutionSimulator.trade_history`.  The OPEN entries of
the source carry no `reason` key, modelled as `none`. -/
structure HistoryEntry where
  action : String
  timestamp : ℤ
  position : Position
  reason : Option String
deriving DecidableEq, Repr

/-- Result dict of `calculate_portfolio_metrics` (lines 121-134). -/
structure Metrics where
  total_positions : ℕ
  net_exposure : ℚ
  total_profit_loss : ℚ
  max_drawdown : ℚ
  strategy_correlation : List (String × ℚ)
deriving DecidableEq, Repr

/-- Mutable state of the simulator that the claims observe: the active
position list owned by `StrategyManager` and the simulator's trade
history. -/
structure EngineState where
  active_positions : List Position
  trade_history : List HistoryEntry
deriving DecidableEq, Repr

/-- Embedding of `StrategyManager.register_strategy` (lines 48-50).
A Python dict keeps the original slot when an existing key is
re-assigned and appends new keys at the end. -/
def register_strategy (id : String) (f : StrategyFunc)
    (l : List (String × StrategyFunc)) : List (String × StrategyFunc) :=
  if id ∈ l.map Prod.fst then
    l.map (fun kv => if kv.1 = id then (id, f) else kv)
  else
    l ++ [(id, f)]

/-- Embedding of `StrategyManager._get_strategy_positions` (lines 61-63). -/
def strategy_positions (ps : List Position) (id : String) : List Position :=
  ps.filter (fun p => p.strategy_id = id)

/-- Loop body of `StrategyManager.process_tick` (lines 52-59): iterate the
registered strategies in order, accumulating `(strategy_id, signal)` pairs;
an exception from a strategy function propagates immediately. -/
def dispatch_from (strats : List (String × StrategyFunc)) (ps : List Position)
    (t : Tick) (acc : List (String × Signal)) :
    Except String (List (String × Signal)) :=
  match strats with
  | [] => .ok acc
  | kv :: rest =>
    match kv.2 t (strategy_positions ps kv.1) with
    | .error e => .error e
    | .ok none => dispatch_from rest ps t acc
    | .ok (some sig) => dispatch_from rest ps t (acc ++ [(kv.1, sig)])

/-- Embedding of `StrategyManager.process_tick` (lines 52-59). -/
def process_tick (strats : List (String × StrategyFunc)) (ps : List Position)
    (t : Tick) : Except String (List (String × Signal)) :=
  dispatch_from strats ps t []

/-- Per-position body of `StrategyManager.update_positions` (lines 65-80):
on a matching symbol set the current price and fold the fresh P&L into
MFE (if larger) and MAE (if smaller); otherwise leave the position alone. -/
def update_position (t : Tick) (p : Position) : Position :=
  if p.symbol = t.symbol then
    { p with
      current_price := some t.price,
      max_favorable_excursion :=
        if p.max_favorable_excursion <
            (t.price - p.entry_price) * (p.direction : ℚ) * p.size then
          (t.price - p.entry_price) * (p.direction : ℚ) * p.size
        else p.max_favorable_excursion,
      max_adverse_excursion :=
        if (t.price - p.entry_price) * (p.direction : ℚ) * p.size <
            p.max_adverse_excursion then
          (t.price - p.entry_price) * (p.direction : ℚ) * p.size
        else p.max_adverse_excursion }
  else p

/-- Embedding of `StrategyManager.update_positions` (lines 65-80): the
in-place loop over `active_positions` becomes a map. -/
def update_positions (t : Tick) (ps : List Position) : List Position :=
  ps.map (update_position t)

/-- Embedding of `PortfolioEvaluator.__init__` (lines 83-90): the
constructor checks that the required key `mfe_exit_threshold` is present
in the risk-settings mapping and raises `ValueError` otherwise; the value
itself is not inspected.  The model returns the stored threshold. -/
def mk_portfolio_evaluator (risk_settings : List (String × ℚ)) :
    Except String ℚ :=
  match risk_settings.lookup "mfe_exit_threshold" with
  | some q => .ok q
  | none => .error "Missing required risk setting: mfe_exit_threshold"

/-- First-seen order of the distinct symbols of the active positions: the
iteration order of the Python dict `symbol_groups` built on lines 99-103. -/
def symbols_in_order (ps : List Position) : List String :=
  (ps.map (fun p => p.symbol)).foldl
    (fun acc s => if s ∈ acc then acc else acc ++ [s]) []

/-- The generator-sum `current_pl` of line 110: summing
`(p.current_price - p.entry_price) * p.direction * p.size` left to right
raises a `TypeError` at the first position whose `current_price` is still
`None`. -/
def group_pl (grp : List Position) : Except String ℚ :=
  match grp with
  | [] => .ok 0
  | p :: rest =>
    match p.current_price with
    | none => .error "unsupported operand type for NoneType"
    | some cp =>
      match group_pl rest with
      | .error e => .error e
      | .ok s => .ok ((cp - p.entry_price) * (p.direction : ℚ) * p.size + s)

/-- Body of the per-symbol loop of `evaluate_exit_conditions`
(lines 107-117): compute the group's total MFE and current P&L and flag
every position of the group when the trailing-stop condition fires. -/
def eval_group (threshold : ℚ) (grp : List Position) :
    Except String (List (Position × String)) :=
  match group_pl grp with
  | .error e => .error e
  | .ok current_pl =>
    if 0 < (grp.map (fun p => p.max_favorable_excursion)).sum ∧
        current_pl <
          (grp.map (fun p => p.max_favorable_excursion)).sum * (1 - threshold) then
      .ok (grp.map (fun p => (p, "MFE_TRAILING_STOP")))
    else
      .ok []

/-- Iterate the symbol groups in first-seen order, concatenating the
flagged pairs; an exception raised inside a group propagates. -/
def eval_groups (threshold : ℚ) (ps : List Position) (syms : List String) :
    Except String (List (Position × String)) :=
  match syms with
  | [] => .ok []
  | s :: rest =>
    match eval_group threshold (ps.filter (fun p => p.symbol = s)) with
    | .error e => .error e
    | .ok flagged =>
      match eval_groups threshold ps rest with
      | .error e => .error e
      | .ok more => .ok (flagged ++ more)

/-- Embedding of `PortfolioEvaluator.evaluate_exit_conditions`
(lines 92-119). -/
def evaluate_exit_conditions (threshold : ℚ) (ps : List Position) :
    Except String (List (Position × String)) :=
  if ps.isEmpty then .ok []
  else eval_groups threshold ps (symbols_in_order ps)

/-- Python truthiness of the `current_price` field, as used by the guard
`if p.current_price` on line 129: `None` and `0` are both falsy. -/
def truthy (c : Option ℚ) : Bool :=
  match c with
  | none => false
  | some x => decide (x ≠ 0)

/-- Embedding of `PortfolioEvaluator.calculate_portfolio_metrics`
(lines 121-134), with the two placeholder helpers inlined (they return
`0.0` and the empty dict). -/
def calculate_portfolio_metrics (ps : List Position) : Metrics :=
  { total_positions := ps.length
    net_exposure := (ps.map (fun p => p.size * (p.direction : ℚ))).sum
    total_profit_loss :=
      ((ps.filter (fun p => truthy p.current_price)).map
        (fun p => (p.current_price.getD 0 - p.entry_price) *
          (p.direction : ℚ) * p.size)).sum
    max_drawdown := 0
    strategy_correlation := [] }

/-- Field-presence validation at the top of
`ExecutionSimulator.process_tick_data` (lines 154-157), checking the keys
in the order `symbol`, `price`, `timestamp` and raising at the first
missing one. -/
def validateTick (raw : RawTick) : Except String Tick :=
  match raw.symbol with
  | none => .error ("Missing required tick field: " ++ "symbol")
  | some s =>
    match raw.price with
    | none => .error ("Missing required tick field: " ++ "price")
    | some pr =>
      match raw.timestamp with
      | none => .error ("Missing required tick field: " ++ "timestamp")
      | some ts => .ok { symbol := s, price := pr, timestamp := ts }

/-- The `Position(...)` constructor call of `_open_position`
(lines 180-187): fresh positions start with no current price and both
excursions at `0`. -/
def mk_position (strategy_id : String) (t : Tick) (size : ℚ)
    (direction : ℤ) : Position :=
  { symbol := t.symbol
    entry_price := t.price
    entry_time := t.timestamp
    direction := direction
    size := size
    strategy_id := strategy_id
    current_price := none
    max_favorable_excursion := 0
    max_adverse_excursion := 0 }

/-- Embedding of `ExecutionSimulator._open_position` (lines 179-193). -/
def open_position (strategy_id : String) (t : Tick) (size : ℚ)
    (direction : ℤ) (st : EngineState) : EngineState :=
  { active_positions := st.active_positions ++ [mk_position strategy_id t size direction]
    trade_history := st.trade_history ++
      [{ action := "OPEN", timestamp := t.timestamp,
         position := mk_position strategy_id t size direction, reason := none }] }

/-- Embedding of `ExecutionSimulator._close_position` (lines 195-206):
`list.remove` deletes the first structurally equal element (`Position` is
a dataclass, so `==` compares the declared fields). -/
def close_position (p : Position) (t : Tick) (reason : String)
    (st : EngineState) : EngineState :=
  { active_positions := st.active_positions.erase p
    trade_history := st.trade_history ++
      [{ action := "CLOSE", timestamp := t.timestamp,
         position := p, reason := some reason }] }

/-- The close loop of `process_tick_data` (lines 164-165). -/
def close_fold (t : Tick) (exits : List (Position × String))
    (st : EngineState) : EngineState :=
  exits.foldl (fun s pr => close_position pr.1 t pr.2 s) st

/-- Branching of the open loop of `process_tick_data` (lines 169-173):
only `BUY` and `SELL` actions open a position. -/
def open_from_signal (id : String) (sig : Signal) (t : Tick)
    (st : EngineState) : EngineState :=
  if sig.action = "BUY" then open_position id t sig.size 1 st
  else if sig.action = "SELL" then open_position id t sig.size (-1) st
  else st

/-- The open loop of `process_tick_data` (lines 169-173). -/
def open_fold (t : Tick) (sigs : List (String × Signal))
    (st : EngineState) : EngineState :=
  sigs.foldl (fun s pr => open_from_signal pr.1 pr.2 t s) st

/-- Embedding of `ExecutionSimulator.process_tick_data` (lines 152-177):
validate, update positions, evaluate and apply exits, dispatch
strategies, open positions from signals, return the metrics snapshot.
Any raised exception propagates and no state is produced. -/
def process_tick_data (strats : List (String × StrategyFunc)) (threshold : ℚ)
    (raw : RawTick) (st : EngineState) :
    Except String (EngineState × Metrics) :=
  match validateTick raw with
  | .error e => .error e
  | .ok t =>
    match evaluate_exit_conditions threshold
        (update_positions t st.active_positions) with
    | .error e => .error e
    | .ok exits =>
      match process_tick strats
          (close_fold t exits
            { active_positions := update_positions t st.active_positions,
              trade_history := st.trade_history }).active_positions t with
      | .error e => .error e
      | .ok sigs =>
        .ok (open_fold t sigs
            (close_fold t exits
              { active_positions := update_positions t st.active_positions,
                trade_history := st.trade_history }),
          calculate_portfolio_metrics
            (open_fold t sigs
              (close_fold t exits
                { active_positions := update_positions t st.active_positions,
                  trade_history := st.trade_history })).active_positions)

/-! ### Spec-side definitions

These definitions transcribe the words of the specification (and, for the
corrected claims, of the amended claim); the theorems below compare them
with the embeddings of the source. -/

/-- Spec wording for the trailing-stop trigger of one instrument group:
`totalMFE > 0` and `currentPL < totalMFE * (1 - threshold)`, where
`totalMFE` sums the positions' MFE and `currentPL` sums
`(currentPrice - entryPrice) * direction * size`. -/
def spec_group_flagged (threshold : ℚ) (grp : List Position) : Prop :=
  0 < (grp.map (fun p => p.max_favorable_excursion)).sum ∧
    (grp.map (fun p =>
      (p.current_price.getD 0 - p.entry_price) * (p.direction : ℚ) * p.size)).sum <
      (grp.map (fun p => p.max_favorable_excursion)).sum * (1 - threshold)

instance (threshold : ℚ) (grp : List Position) :
    Decidable (spec_group_flagged threshold grp) :=
  inferInstanceAs (Decidable (_ < _ ∧ _ < _))

/-- Spec wording for `ExitEvaluator.evaluate`: group the positions by
instrument in first-seen order; every position of a triggered group is
flagged with reason `MFE_TRAILING_STOP`, groups emitted in iteration
order and positions within a group in their original active-set order. -/
def spec_evaluate (threshold : ℚ) (ps : List Position) :
    List (Position × String) :=
  ((symbols_in_order ps).filter
      (fun s => decide (spec_group_flagged threshold (ps.filter (fun p => p.symbol = s))))).flatMap
    (fun s => (ps.filter (fun p => p.symbol = s)).map
      (fun p => (p, "MFE_TRAILING_STOP")))

/-- Amended spec wording for which positions enter `totalUnrealizedPL`:
positions whose current price is known and nonzero. -/
def has_nonzero_price (p : Position) : Prop :=
  p.current_price ≠ none ∧ p.current_price ≠ some 0

instance (p : Position) : Decidable (has_nonzero_price p) :=
  inferInstanceAs (Decidable (_ ≠ _ ∧ _ ≠ _))

/-- Amended spec wording for `totalUnrealizedPL`: the unrealized-P&L sum
over exactly the positions with a known nonzero current price. -/
def spec_total_unrealized_pl (ps : List Position) : ℚ :=
  ((ps.filter (fun p => decide (has_nonzero_price p))).map
    (fun p => (p.current_price.getD 0 - p.entry_price) *
      (p.direction : ℚ) * p.size)).sum

/-- The value a strategy dispatch contributes: `some s` exactly when the
evaluator ran without raising and returned a signal. -/
def ok_signal (r : Except String (Option Signal)) : Option Signal :=
  match r with
  | .ok s => s
  | .error _ => none

/-- States reachable from a fresh simulator by successful
`process_tick_data` calls (a failed call raises and leaves the state
untouched, so it reaches no new state). -/
inductive Reachable : EngineState → Prop
  | init : Reachable { active_positions := [], trade_history := [] }
  | step (strats : List (String × StrategyFunc)) (threshold : ℚ)
      (raw : RawTick) (st st' : EngineState) (m : Metrics) :
      Reachable st →
      process_tick_data strats threshold raw st = .ok (st', m) →
      Reachable st'

/-! ### Concrete instances used by the witnesses and counterexamples -/

/-- Concrete position realizing the spec's scenario 3: MFE 10 and current
P&L −5 on a long of size 1 entered at 100 now priced 95. -/
def pWit : Position :=
  { symbol := "X", entry_price := 100, entry_time := 0, direction := 1,
    size := 1, strategy_id := "s", current_price := some 95,
    max_favorable_excursion := 10, max_adverse_excursion := 0 }

/-- Open long of size 1 entered at 100, fresh (spec scenario 1). -/
def pLong100 : Position :=
  { symbol := "X", entry_price := 100, entry_time := 0, direction := 1,
    size := 1, strategy_id := "s" }

/-- Tick at price 110 on the same instrument. -/
def tick110 : Tick := { symbol := "X", price := 110, timestamp := 1 }

/-- Later tick at price 95 on the same instrument. -/
def tick95 : Tick := { symbol := "X", price := 95, timestamp := 2 }

/-- The long after the tick at 110: unrealized P&L 10, MFE 10, MAE 0. -/
def pAfter110 : Position :=
  { symbol := "X", entry_price := 100, entry_time := 0, direction := 1,
    size := 1, strategy_id := "s", current_price := some 110,
    max_favorable_excursion := 10, max_adverse_excursion := 0 }

/-- The same long after the further tick at 95: P&L −5, MFE still 10,
MAE −5. -/
def pAfter95 : Position :=
  { symbol := "X", entry_price := 100, entry_time := 0, direction := 1,
    size := 1, strategy_id := "s", current_price := some 95,
    max_favorable_excursion := 10, max_adverse_excursion := -5 }

/-- Empty engine state. -/
def st0 : EngineState := { active_positions := [], trade_history := [] }

/-- Raw tick whose `price` key is absent (spec scenario 4). -/
def rawNoPrice : RawTick :=
  { symbol := some "X", price := none, timestamp := some 0 }

/-- Strategy that buys one unit on every tick of instrument `A` and stays
flat otherwise. -/
def openEvalA : StrategyFunc :=
  fun t _ => .ok (if t.symbol = "A" then some { action := "BUY", size := 1 } else none)

/-- Valid tick on instrument `A`. -/
def rawA : RawTick := { symbol := some "A", price := some 100, timestamp := some 0 }

/-- Valid tick on instrument `B`. -/
def rawB : RawTick := { symbol := some "B", price := some 200, timestamp := some 1 }

/-- The position opened on instrument `A`: current price still unset. -/
def posA : Position :=
  { symbol := "A", entry_price := 100, entry_time := 0, direction := 1,
    size := 1, strategy_id := "s" }

/-- History record of opening `posA`. -/
def openEntryA : HistoryEntry :=
  { action := "OPEN", timestamp := 0, position := posA, reason := none }

/-- Engine state after the `A` tick opened `posA`. -/
def stA : EngineState :=
  { active_positions := [posA], trade_history := [openEntryA] }

/-- Metrics returned with `stA`: one position, and `posA` is excluded
from the unrealized-P&L sum because it was never ticked. -/
def mA : Metrics := calculate_portfolio_metrics [posA]

/-- Position ticked at price exactly 0 (long of size 1 entered at 5):
unrealized P&L is −5, but the price is falsy in Python. -/
def pZero : Position :=
  { symbol := "X", entry_price := 5, entry_time := 0, direction := 1,
    size := 1, strategy_id := "s", current_price := some 0 }

/-- Strategy evaluator that always raises. -/
def failEval : StrategyFunc := fun _ _ => .error "strategy failure"

/-- Strategy evaluator that always emits a Buy signal of size 1. -/
def buyEval : StrategyFunc :=
  fun _ _ => .ok (some { action := "BUY", size := 1 })

/-- Strategy evaluator that never emits a signal. -/
def noneEval : StrategyFunc := fun _ _ => .ok none

/-- Generic valid tick used by dispatch scenarios. -/
def tickX : Tick := { symbol := "X", price := 5, timestamp := 0 }

/-- Raw form of `tickX`. -/
def rawX : RawTick := { symbol := some "X", price := some 5, timestamp := some 0 }

/-- Strategies `A` then `B` registered in that order (spec scenario 5):
`A` stays silent, `B` buys. -/
def stratsAB : List (String × StrategyFunc) :=
  register_strategy "B" buyEval (register_strategy "A" noneEval [])

/-! ### Helper lemmas -/

lemma group_pl_ok (grp : List Position)
    (hall : ∀ p ∈ grp, p.current_price.isSome) :
    group_pl grp = .ok ((grp.map (fun p =>
      (p.current_price.getD 0 - p.entry_price) * (p.direction : ℚ) * p.size)).sum) := by
  induction grp with
  | nil => simp [group_pl]
  | cons p rest ih =>
    have hp := hall p (List.mem_cons_self p rest)
    cases hcp : p.current_price with
    | none => rw [hcp] at hp; simp at hp
    | some cp =>
      have hrest : ∀ q ∈ rest, q.current_price.isSome :=
        fun q hq => hall q (List.mem_cons_of_mem p hq)
      simp [group_pl, hcp, ih hrest]

lemma eval_group_ok (threshold : ℚ) (grp : List Position)
    (hall : ∀ p ∈ grp, p.current_price.isSome) :
    eval_group threshold grp =
      .ok (if spec_group_flagged threshold grp then
        grp.map (fun p => (p, "MFE_TRAILING_STOP")) else []) := by
  unfold eval_group
  rw [group_pl_ok grp hall]
  by_cases h : spec_group_flagged threshold grp
  · have h' := h
    unfold spec_group_flagged at h'
    simp [h, h']
  · have h' := h
    unfold spec_group_flagged at h'
    simp [h, h']

lemma eval_groups_ok (threshold : ℚ) (ps : List Position)
    (hall : ∀ p ∈ ps, p.current_price.isSome) :
    ∀ syms : List String,
      eval_groups threshold ps syms =
        .ok ((syms.filter (fun s => decide (spec_group_flagged threshold
            (ps.filter (fun p => p.symbol = s))))).flatMap
          (fun s => (ps.filter (fun p => p.symbol = s)).map
            (fun p => (p, "MFE_TRAILING_STOP")))) := by
  intro syms
  induction syms with
  | nil => simp [eval_groups]
  | cons s rest ih =>
    have hgrp : ∀ p ∈ ps.filter (fun p => p.symbol = s), p.current_price.isSome :=
      fun p hp => hall p (List.mem_of_mem_filter hp)
    simp only [eval_groups]
    rw [eval_group_ok threshold _ hgrp, ih]
    by_cases h : spec_group_flagged threshold (ps.filter (fun p => p.symbol = s))
    · simp [h]
    · simp [h]

/-! ### Claim C1 -/

/-- C1: for every non-empty active-position set whose positions all carry
a current price, `evaluate_exit_conditions` returns exactly the flag list
described by the spec — positions grouped by instrument in first-seen
order, a group flagged with reason `MFE_TRAILING_STOP` precisely when
`totalMFE > 0` and `currentPL < totalMFE * (1 - threshold)`, groups in
iteration order and positions in active-set order — and every emitted
position is an unmodified member of the input set. -/
theorem exit_evaluator_matches_spec (threshold : ℚ) (ps : List Position)
    (hne : ps ≠ []) (hall : ∀ p ∈ ps, p.current_price.isSome) :
    evaluate_exit_conditions threshold ps = .ok (spec_evaluate threshold ps) ∧
    ∀ pr ∈ spec_evaluate threshold ps, pr.1 ∈ ps ∧ pr.2 = "MFE_TRAILING_STOP" := by
  constructor
  · unfold spec_evaluate
    cases ps with
    | nil => exact absurd rfl hne
    | cons p rest =>
      rw [evaluate_exit_conditions]
      simp only [List.isEmpty_cons, Bool.false_eq_true, if_false]
      exact eval_groups_ok threshold (p :: rest) hall (symbols_in_order (p :: rest))
  · intro pr hpr
    unfold spec_evaluate at hpr
    rcases List.mem_flatMap.mp hpr with ⟨s, hs, hm⟩
    rcases List.mem_map.mp hm with ⟨p, hp, rfl⟩
    exact ⟨List.mem_of_mem_filter hp, rfl⟩

/-- Witness for C1: with threshold 0.5, group totalMFE 10 and currentPL
−5, the position is flagged with reason `MFE_TRAILING_STOP`. -/
theorem exit_evaluator_matches_spec_witness :
    spec_evaluate (1/2) [pWit] = [(pWit, "MFE_TRAILING_STOP")] ∧
    evaluate_exit_conditions (1/2) [pWit] = .ok (spec_evaluate (1/2) [pWit]) :=
  ⟨by norm_num [spec_evaluate, symbols_in_order, spec_group_flagged, pWit,
      List.filter_cons, decide_eq_true_eq],
    (exit_evaluator_matches_spec (1/2) [pWit] (by decide) (by decide)).1⟩

/-! ### Claim C2 -/

lemma ite_max (a b : ℚ) : (if a < b then b else a) = max a b := by
  rcases le_or_lt b a with h | h
  · rw [if_neg (not_lt.mpr h), max_eq_left h]
  · rw [if_pos h, max_eq_right h.le]

lemma ite_min (a b : ℚ) : (if b < a then b else a) = min a b := by
  rcases le_or_lt a b with h | h
  · rw [if_neg (not_lt.mpr h), min_eq_left h]
  · rw [if_pos h, min_eq_right h.le]

/-- C2: `update_positions` maps every position through `update_position`;
a position whose instrument matches the tick gets its current price set
to the tick price, its MFE replaced by `max(MFE, pl)` and its MAE by
`min(MAE, pl)` for `pl = (tick.price - entry_price) * direction * size`,
all other fields untouched; positions on other instruments are unchanged.
In particular a long of size 1 entered at 100 has, after a tick at 110,
MFE 10 and MAE 0, and after a further tick at 95, MFE still 10 and MAE
−5. -/
theorem update_positions_spec (t : Tick) (ps : List Position) (p : Position) :
    update_positions t ps = ps.map (update_position t) ∧
    (p.symbol = t.symbol → update_position t p =
      { p with
        current_price := some t.price,
        max_favorable_excursion := max p.max_favorable_excursion
          ((t.price - p.entry_price) * (p.direction : ℚ) * p.size),
        max_adverse_excursion := min p.max_adverse_excursion
          ((t.price - p.entry_price) * (p.direction : ℚ) * p.size) }) ∧
    (p.symbol ≠ t.symbol → update_position t p = p) ∧
    update_positions tick110 [pLong100] = [pAfter110] ∧
    update_positions tick95 [pAfter110] = [pAfter95] := by
  refine ⟨rfl, ?_, ?_, ?_, ?_⟩
  · intro h
    simp only [update_position, if_pos h, ite_max, ite_min]
  · intro h
    simp only [update_position, if_neg h]
  · norm_num [update_positions, update_position, pLong100, tick110, pAfter110]
  · norm_num [update_positions, update_position, pAfter110, tick95, pAfter95]

/-- Witness for C2: the matching-symbol branch evaluated on the concrete
long at entry 100 and the tick at 110. -/
theorem update_positions_spec_witness :
    update_position tick110 pLong100 =
      { pLong100 with
        current_price := some tick110.price,
        max_favorable_excursion := max pLong100.max_favorable_excursion
          ((tick110.price - pLong100.entry_price) *
            (pLong100.direction : ℚ) * pLong100.size),
        max_adverse_excursion := min pLong100.max_adverse_excursion
          ((tick110.price - pLong100.entry_price) *
            (pLong100.direction : ℚ) * pLong100.size) } :=
  (update_positions_spec tick110 [] pLong100).2.1 rfl

/-! ### Claim C3 -/

/-- C3: a tick missing any of the three required fields makes
`process_tick_data` fail with the validation error, and the outcome does
not depend on the engine state at all — validation runs before any state
is read or produced, so active positions, position fields and trade
history are exactly as before the call. -/
theorem validation_rejects (strats : List (String × StrategyFunc))
    (threshold : ℚ) (raw : RawTick) (st : EngineState)
    (h : raw.symbol = none ∨ raw.price = none ∨ raw.timestamp = none) :
    ∃ f, process_tick_data strats threshold raw st =
        .error ("Missing required tick field: " ++ f) ∧
      ∀ st2 : EngineState, process_tick_data strats threshold raw st2 =
        process_tick_data strats threshold raw st := by
  have hv : ∃ f, validateTick raw = .error ("Missing required tick field: " ++ f) := by
    cases hs : raw.symbol with
    | none => exact ⟨"symbol", by simp [validateTick, hs]⟩
    | some s =>
      cases hp : raw.price with
      | none => exact ⟨"price", by simp [validateTick, hs, hp]⟩
      | some pr =>
        cases ht : raw.timestamp with
        | none => exact ⟨"timestamp", by simp [validateTick, hs, hp, ht]⟩
        | some ts => rcases h with h | h | h <;> simp_all
  rcases hv with ⟨f, hf⟩
  refine ⟨f, ?_, ?_⟩
  · simp [process_tick_data, hf]
  · intro st2
    simp [process_tick_data, hf]

/-- Witness for C3: processing a tick without a `price` key fails with
the validation error on the fresh engine. -/
theorem validation_rejects_witness :
    ∃ f, process_tick_data [] 1 rawNoPrice st0 =
        .error ("Missing required tick field: " ++ f) ∧
      ∀ st2 : EngineState, process_tick_data [] 1 rawNoPrice st2 =
        process_tick_data [] 1 rawNoPrice st0 :=
  validation_rejects [] 1 rawNoPrice st0 (Or.inr (Or.inl rfl))

/-! ### Claim C4 -/

lemma update_position_mfe_le (t : Tick) (p : Position) :
    p.max_favorable_excursion ≤ (update_position t p).max_favorable_excursion := by
  unfold update_position
  by_cases h : p.symbol = t.symbol
  · rw [if_pos h]
    dsimp only
    split_ifs with h2
    · exact le_of_lt h2
    · exact le_rfl
  · rw [if_neg h]

lemma update_position_mae_le (t : Tick) (p : Position) :
    (update_position t p).max_adverse_excursion ≤ p.max_adverse_excursion := by
  unfold update_position
  by_cases h : p.symbol = t.symbol
  · rw [if_pos h]
    dsimp only
    split_ifs with h2
    · exact le_of_lt h2
    · exact le_rfl
  · rw [if_neg h]

lemma process_tick_data_ok_inv (strats : List (String × StrategyFunc))
    (threshold : ℚ) (raw : RawTick) (st st' : EngineState) (m : Metrics)
    (h : process_tick_data strats threshold raw st = .ok (st', m)) :
    ∃ t exits sigs,
      validateTick raw = .ok t ∧
      evaluate_exit_conditions threshold
        (update_positions t st.active_positions) = .ok exits ∧
      process_tick strats (close_fold t exits
        { active_positions := update_positions t st.active_positions,
          trade_history := st.trade_history }).active_positions t = .ok sigs ∧
      st' = open_fold t sigs (close_fold t exits
        { active_positions := update_positions t st.active_positions,
          trade_history := st.trade_history }) := by
  unfold process_tick_data at h
  cases hv : validateTick raw with
  | error e => rw [hv] at h; simp at h
  | ok t =>
    rw [hv] at h
    dsimp only at h
    cases hex : evaluate_exit_conditions threshold
        (update_positions t st.active_positions) with
    | error e => rw [hex] at h; simp at h
    | ok exits =>
      rw [hex] at h
      dsimp only at h
      cases hd : process_tick strats (close_fold t exits
          { active_positions := update_positions t st.active_positions,
            trade_history := st.trade_history }).active_positions t with
      | error e => rw [hd] at h; simp at h
      | ok sigs =>
        rw [hd] at h
        dsimp only at h
        simp only [Except.ok.injEq, Prod.mk.injEq] at h
        exact ⟨t, exits, sigs, rfl, hex, hd, h.1.symm⟩

lemma close_position_active_sub (p : Position) (t : Tick) (r : String)
    (st : EngineState) (q : Position)
    (hq : q ∈ (close_position p t r st).active_positions) :
    q ∈ st.active_positions := by
  unfold close_position at hq
  exact List.mem_of_mem_erase hq

lemma close_fold_active_sub (t : Tick) :
    ∀ (exits : List (Position × String)) (st : EngineState) (q : Position),
      q ∈ (close_fold t exits st).active_positions → q ∈ st.active_positions := by
  intro exits
  induction exits with
  | nil =>
    intro st q hq
    simpa [close_fold] using hq
  | cons x rest ih =>
    intro st q hq
    have hq' : q ∈ (close_fold t rest (close_position x.1 t x.2 st)).active_positions := by
      simpa [close_fold] using hq
    exact close_position_active_sub _ _ _ _ _ (ih _ q hq')

lemma open_position_active_mem (id : String) (t : Tick) (size : ℚ) (dir : ℤ)
    (st : EngineState) (q : Position)
    (hq : q ∈ (open_position id t size dir st).active_positions) :
    q ∈ st.active_positions ∨ q = mk_position id t size dir := by
  unfold open_position at hq
  rcases List.mem_append.mp hq with h | h
  · exact Or.inl h
  · exact Or.inr (List.mem_singleton.mp h)

lemma open_from_signal_active_mem (id : String) (sig : Signal) (t : Tick)
    (st : EngineState) (q : Position)
    (hq : q ∈ (open_from_signal id sig t st).active_positions) :
    q ∈ st.active_positions ∨
      (q.max_favorable_excursion = 0 ∧ q.max_adverse_excursion = 0) := by
  unfold open_from_signal at hq
  split_ifs at hq with h1 h2
  · rcases open_position_active_mem _ _ _ _ _ _ hq with h | h
    · exact Or.inl h
    · subst h
      exact Or.inr ⟨rfl, rfl⟩
  · rcases open_position_active_mem _ _ _ _ _ _ hq with h | h
    · exact Or.inl h
    · subst h
      exact Or.inr ⟨rfl, rfl⟩
  · exact Or.inl hq

lemma open_fold_active_mem (t : Tick) :
    ∀ (sigs : List (String × Signal)) (st : EngineState) (q : Position),
      q ∈ (open_fold t sigs st).active_positions →
      q ∈ st.active_positions ∨
        (q.max_favorable_excursion = 0 ∧ q.max_adverse_excursion = 0) := by
  intro sigs
  induction sigs with
  | nil =>
    intro st q hq
    exact Or.inl (by simpa [open_fold] using hq)
  | cons x rest ih =>
    intro st q hq
    have hq' : q ∈ (open_fold t rest (open_from_signal x.1 x.2 t st)).active_positions := by
      simpa [open_fold] using hq
    rcases ih _ q hq' with h | h
    · exact open_from_signal_active_mem _ _ _ _ _ h
    · exact Or.inr h

/-- C4: for every reachable engine state, every active position has
`MFE ≥ 0` and `MAE ≤ 0`; every single tick update is monotone (`MFE`
non-decreasing, `MAE` non-increasing); and a freshly opened position
starts with `MFE = MAE = 0`. -/
theorem mfe_mae_invariants (st : EngineState) (h : Reachable st) :
    (∀ p ∈ st.active_positions,
        0 ≤ p.max_favorable_excursion ∧ p.max_adverse_excursion ≤ 0) ∧
    (∀ (t : Tick) (p : Position),
        p.max_favorable_excursion ≤ (update_position t p).max_favorable_excursion ∧
        (update_position t p).max_adverse_excursion ≤ p.max_adverse_excursion) ∧
    (∀ (id : String) (t : Tick) (size : ℚ) (dir : ℤ),
        (mk_position id t size dir).max_favorable_excursion = 0 ∧
        (mk_position id t size dir).max_adverse_excursion = 0) := by
  refine ⟨?_, fun t p => ⟨update_position_mfe_le t p, update_position_mae_le t p⟩,
    fun id t size dir => ⟨rfl, rfl⟩⟩
  induction h with
  | init =>
    intro p hp
    cases hp
  | step strats threshold raw st1 st' m hr heq ih =>
    rcases process_tick_data_ok_inv _ _ _ _ _ _ heq with ⟨t, exits, sigs, hv, hex, hd, hst⟩
    subst hst
    intro q hq
    rcases open_fold_active_mem t sigs _ q hq with hq1 | hq1
    · have hq2 : q ∈ update_positions t st1.active_positions :=
        close_fold_active_sub t exits _ q hq1
    -- hq2 expands to membership in the mapped list
      rcases List.mem_map.mp (by simpa [update_positions] using hq2) with ⟨p, hp, rfl⟩
      have hg := ih p hp
      exact ⟨le_trans hg.1 (update_position_mfe_le t p),
        le_trans (update_position_mae_le t p) hg.2⟩
    · exact ⟨le_of_eq hq1.1.symm, le_of_eq hq1.2⟩

lemma process_rawA :
    process_tick_data [("s", openEvalA)] (1/2) rawA st0 = .ok (stA, mA) := rfl

/-- Witness for C4: at the engine state reached by opening `posA` on the
first tick, the active position `posA` satisfies both excursion bounds. -/
theorem mfe_mae_invariants_witness :
    0 ≤ posA.max_favorable_excursion ∧ posA.max_adverse_excursion ≤ 0 :=
  (mfe_mae_invariants stA
    (Reachable.step [("s", openEvalA)] (1/2) rawA st0 stA mA
      Reachable.init process_rawA)).1 posA (List.mem_singleton.mpr rfl)

/-! ### Claim C5 -/

lemma dispatch_from_error (t : Tick) (ps : List Position) (id : String)
    (f : StrategyFunc) (post : List (String × StrategyFunc)) (e : String)
    (hf : f t (strategy_positions ps id) = .error e) :
    ∀ (pre : List (String × StrategyFunc)) (acc : List (String × Signal)),
      (∀ kv ∈ pre, ∃ r, kv.2 t (strategy_positions ps kv.1) = .ok r) →
      dispatch_from (pre ++ (id, f) :: post) ps t acc = .error e := by
  intro pre
  induction pre with
  | nil =>
    intro acc _
    simp only [List.nil_append, dispatch_from, hf]
  | cons kv rest ih =>
    intro acc hok
    rcases hok kv (List.mem_cons_self kv rest) with ⟨r, hr⟩
    have hrest : ∀ kv2 ∈ rest, ∃ r, kv2.2 t (strategy_positions ps kv2.1) = .ok r :=
      fun kv2 hkv2 => hok kv2 (List.mem_cons_of_mem kv hkv2)
    cases r with
    | none =>
      simp only [List.cons_append, dispatch_from, hr]
      exact ih acc hrest
    | some sig =>
      simp only [List.cons_append, dispatch_from, hr]
      exact ih (acc ++ [(kv.1, sig)]) hrest

/-- Counterexample to C5 as stated: with the failing evaluator `F`
registered before `B`, dispatch returns the raised error — `B` is never
dispatched, no signal list is produced, and the whole
`process_tick_data` pipeline aborts with that error instead of
completing with a diagnostic. -/
theorem strategy_failure_counterexample :
    process_tick [("F", failEval), ("B", buyEval)] [] tickX =
      .error "strategy failure" ∧
    process_tick_data [("F", failEval), ("B", buyEval)] 1 rawX st0 =
      .error "strategy failure" :=
  ⟨rfl, rfl⟩

/-- C5 (amended): if a registered evaluator raises during dispatch, the
loop aborts at that evaluator — strategies registered after it are not
dispatched and the exception propagates to the caller of
`process_tick`, aborting the pipeline. -/
theorem strategy_failure_aborts (pre : List (String × StrategyFunc))
    (id : String) (f : StrategyFunc) (post : List (String × StrategyFunc))
    (t : Tick) (ps : List Position) (e : String)
    (hpre : ∀ kv ∈ pre, ∃ r, kv.2 t (strategy_positions ps kv.1) = .ok r)
    (hf : f t (strategy_positions ps id) = .error e) :
    process_tick (pre ++ (id, f) :: post) ps t = .error e :=
  dispatch_from_error t ps id f post e hf pre [] hpre

/-- Witness for the amended C5: a silent strategy, then the failing one,
then a buying one — dispatch stops at the failure. -/
theorem strategy_failure_aborts_witness :
    process_tick ([("A", noneEval)] ++ ("F", failEval) :: [("B", buyEval)])
      [] tickX = .error "strategy failure" :=
  strategy_failure_aborts [("A", noneEval)] "F" failEval [("B", buyEval)]
    tickX [] "strategy failure"
    (by
      intro kv hkv
      rw [List.mem_singleton] at hkv
      subst hkv
      exact ⟨none, rfl⟩)
    rfl

/-! ### Claim C6 -/

/-- Counterexample to C6 as stated: the threshold 2 lies outside the
interval (0,1], yet the constructor accepts it. -/
theorem threshold_range_unchecked_counterexample :
    mk_portfolio_evaluator [("mfe_exit_threshold", 2)] = .ok 2 ∧
    ¬((0:ℚ) < 2 ∧ (2:ℚ) ≤ 1) :=
  ⟨rfl, by norm_num⟩

/-- C6 (amended): construction fails precisely when the
`mfe_exit_threshold` key is absent from the risk settings; any present
value — in the interval (0,1] or not — is accepted.  The presence check
happens at construction only; the value's range is never checked. -/
theorem construction_checks_presence_only (rs : List (String × ℚ)) :
    (rs.lookup "mfe_exit_threshold" = none →
      mk_portfolio_evaluator rs =
        .error "Missing required risk setting: mfe_exit_threshold") ∧
    (∀ q : ℚ, rs.lookup "mfe_exit_threshold" = some q →
      mk_portfolio_evaluator rs = .ok q) := by
  constructor
  · intro h
    unfold mk_portfolio_evaluator
    rw [h]
  · intro q h
    unfold mk_portfolio_evaluator
    rw [h]

/-- Witness for the amended C6: the out-of-range threshold 2 is accepted
at construction. -/
theorem construction_checks_presence_only_witness :
    mk_portfolio_evaluator [("mfe_exit_threshold", 2)] = .ok 2 :=
  (construction_checks_presence_only [("mfe_exit_threshold", 2)]).2 2 rfl

/-! ### Claim C7 -/

lemma truthy_iff (c : Option ℚ) : truthy c = decide (c ≠ none ∧ c ≠ some 0) := by
  cases c with
  | none => simp [truthy]
  | some x =>
    by_cases h : x = 0
    · subst h
      simp [truthy]
    · simp [truthy, h]

/-- Counterexample to C7 as stated: a position whose observed current
price is exactly 0 has unrealized P&L −5, but the metric reports 0 —
the truthiness guard `if p.current_price` drops price-0 positions, so
not every ticked position is included. -/
theorem metrics_zero_price_counterexample :
    (calculate_portfolio_metrics [pZero]).total_profit_loss = 0 ∧
    pZero.current_price = some 0 ∧
    ((0:ℚ) - pZero.entry_price) * (pZero.direction : ℚ) * pZero.size = -5 ∧
    (0:ℚ) ≠ -5 := by
  refine ⟨?_, rfl, ?_, by norm_num⟩
  · norm_num [calculate_portfolio_metrics, truthy, pZero, List.filter_cons]
  · norm_num [pZero]

/-- C7 (amended): the metrics snapshot returns `totalPositions` equal to
the count of active positions, `netExposure` equal to the sum of
`size * direction`, and `totalUnrealizedPL` equal to the sum of
`(currentPrice - entryPrice) * direction * size` over exactly those
positions whose current price is known and nonzero — positions never
ticked, and positions whose current price is 0, are excluded. -/
theorem portfolio_metrics_spec (ps : List Position) :
    (calculate_portfolio_metrics ps).total_positions = ps.length ∧
    (calculate_portfolio_metrics ps).net_exposure =
      (ps.map (fun p => p.size * (p.direction : ℚ))).sum ∧
    (calculate_portfolio_metrics ps).total_profit_loss =
      spec_total_unrealized_pl ps := by
  refine ⟨rfl, rfl, ?_⟩
  unfold calculate_portfolio_metrics spec_total_unrealized_pl
  have hfil : ps.filter (fun p => truthy p.current_price) =
      ps.filter (fun p => decide (has_nonzero_price p)) := by
    apply List.filter_congr
    intro p _
    rw [truthy_iff]
    exact decide_eq_decide.mpr Iff.rfl
  rw [hfil]

/-! ### Claim C8 -/

lemma close_fold_history (t : Tick) :
    ∀ (exits : List (Position × String)) (st : EngineState) (e : HistoryEntry),
      e ∈ (close_fold t exits st).trade_history →
      e ∈ st.trade_history ∨
        (e.action = "CLOSE" ∧ e.position ∈ exits.map Prod.fst) := by
  intro exits
  induction exits with
  | nil =>
    intro st e he
    exact Or.inl (by simpa [close_fold] using he)
  | cons x rest ih =>
    intro st e he
    have he' : e ∈ (close_fold t rest (close_position x.1 t x.2 st)).trade_history := by
      simpa [close_fold] using he
    rcases ih _ e he' with h | h
    · unfold close_position at h
      rcases List.mem_append.mp h with h2 | h2
      · exact Or.inl h2
      · rw [List.mem_singleton] at h2
        subst h2
        exact Or.inr ⟨rfl, by simp⟩
    · refine Or.inr ⟨h.1, ?_⟩
      simp only [List.map_cons]
      exact List.mem_cons_of_mem _ h.2

lemma open_from_signal_active_mono (id : String) (sig : Signal) (t : Tick)
    (st : EngineState) (q : Position) (hq : q ∈ st.active_positions) :
    q ∈ (open_from_signal id sig t st).active_positions := by
  unfold open_from_signal open_position
  split_ifs <;> simp [hq]

lemma open_fold_active_mono (t : Tick) :
    ∀ (sigs : List (String × Signal)) (st : EngineState) (q : Position),
      q ∈ st.active_positions → q ∈ (open_fold t sigs st).active_positions := by
  intro sigs
  induction sigs with
  | nil =>
    intro st q hq
    simpa [open_fold] using hq
  | cons x rest ih =>
    intro st q hq
    have hq' : q ∈ (open_from_signal x.1 x.2 t st).active_positions :=
      open_from_signal_active_mono _ _ _ _ _ hq
    simpa [open_fold] using ih _ q hq'

lemma open_fold_history (t : Tick) :
    ∀ (sigs : List (String × Signal)) (st : EngineState) (e : HistoryEntry),
      e ∈ (open_fold t sigs st).trade_history →
      e ∈ st.trade_history ∨
        (e.action = "OPEN" ∧
          e.position ∈ (open_fold t sigs st).active_positions) := by
  intro sigs
  induction sigs with
  | nil =>
    intro st e he
    exact Or.inl (by simpa [open_fold] using he)
  | cons x rest ih =>
    intro st e he
    have he' : e ∈ (open_fold t rest (open_from_signal x.1 x.2 t st)).trade_history := by
      simpa [open_fold] using he
    rcases ih _ e he' with h | h
    · unfold open_from_signal at h
      by_cases h1 : x.2.action = "BUY"
      · rw [if_pos h1] at h
        unfold open_position at h
        rcases List.mem_append.mp h with h2 | h2
        · exact Or.inl h2
        · rw [List.mem_singleton] at h2
          subst h2
          refine Or.inr ⟨rfl, ?_⟩
          have hmem : mk_position x.1 t x.2.size 1 ∈
              (open_from_signal x.1 x.2 t st).active_positions := by
            unfold open_from_signal
            rw [if_pos h1]
            unfold open_position
            simp
          have hfin := open_fold_active_mono t rest _ _ hmem
          simpa [open_fold] using hfin
      · by_cases h2s : x.2.action = "SELL"
        · rw [if_neg h1, if_pos h2s] at h
          unfold open_position at h
          rcases List.mem_append.mp h with h2 | h2
          · exact Or.inl h2
          · rw [List.mem_singleton] at h2
            subst h2
            refine Or.inr ⟨rfl, ?_⟩
            have hmem : mk_position x.1 t x.2.size (-1) ∈
                (open_from_signal x.1 x.2 t st).active_positions := by
              unfold open_from_signal
              rw [if_neg h1, if_pos h2s]
              unfold open_position
              simp
            have hfin := open_fold_active_mono t rest _ _ hmem
            simpa [open_fold] using hfin
        · rw [if_neg h1, if_neg h2s] at h
          exact Or.inl h
    · refine Or.inr ⟨h.1, ?_⟩
      simpa [open_fold] using h.2

/-- C8: when `process_tick_data` succeeds, exit evaluation ran on the
state already updated by the current tick, every CLOSE recorded this
tick concerns a position flagged by that evaluation (computed before
dispatch), and every position opened by this tick's dispatch is still in
the final active set — so a position opened this tick is never closed by
this tick's exit evaluation. -/
theorem pipeline_opens_survive (strats : List (String × StrategyFunc))
    (threshold : ℚ) (raw : RawTick) (st st' : EngineState) (m : Metrics)
    (h : process_tick_data strats threshold raw st = .ok (st', m)) :
    ∃ t exits,
      validateTick raw = .ok t ∧
      evaluate_exit_conditions threshold
        (update_positions t st.active_positions) = .ok exits ∧
      ∀ e ∈ st'.trade_history,
        e ∈ st.trade_history ∨
        (e.action = "CLOSE" ∧ e.position ∈ exits.map Prod.fst) ∨
        (e.action = "OPEN" ∧ e.position ∈ st'.active_positions) := by
  rcases process_tick_data_ok_inv _ _ _ _ _ _ h with ⟨t, exits, sigs, hv, hex, hd, hst⟩
  refine ⟨t, exits, hv, hex, ?_⟩
  intro e he
  rw [hst] at he ⊢
  rcases open_fold_history t sigs _ e he with h1 | h1
  · rcases close_fold_history t exits _ e h1 with h2 | h2
    · exact Or.inl h2
    · exact Or.inr (Or.inl h2)
  · exact Or.inr (Or.inr h1)

/-- Witness for C8: the successful `A`-tick run that opens `posA`. -/
theorem pipeline_opens_survive_witness :
    ∃ t exits,
      validateTick rawA = .ok t ∧
      evaluate_exit_conditions (1/2)
        (update_positions t st0.active_positions) = .ok exits ∧
      ∀ e ∈ stA.trade_history,
        e ∈ st0.trade_history ∨
        (e.action = "CLOSE" ∧ e.position ∈ exits.map Prod.fst) ∨
        (e.action = "OPEN" ∧ e.position ∈ stA.active_positions) :=
  pipeline_opens_survive [("s", openEvalA)] (1/2) rawA st0 stA mA process_rawA

/-! ### Claim C9 -/

lemma register_strategy_keys (id : String) (f : StrategyFunc)
    (l : List (String × StrategyFunc)) :
    (register_strategy id f l).map Prod.fst =
      if id ∈ l.map Prod.fst then l.map Prod.fst
      else l.map Prod.fst ++ [id] := by
  unfold register_strategy
  split_ifs with h
  · rw [List.map_map]
    apply List.map_congr_left
    intro kv _
    by_cases hkv : kv.1 = id
    · simp [Function.comp, hkv]
    · simp [Function.comp, hkv]
  · simp

lemma register_strategy_mem (id : String) (f : StrategyFunc)
    (l : List (String × StrategyFunc)) :
    (id, f) ∈ register_strategy id f l := by
  unfold register_strategy
  split_ifs with h
  · rcases List.mem_map.mp h with ⟨kv, hkv, hfst⟩
    refine List.mem_map.mpr ⟨kv, hkv, ?_⟩
    rw [if_pos hfst]
  · exact List.mem_append.mpr (Or.inr (List.mem_singleton.mpr rfl))

lemma register_strategy_other (id : String) (f : StrategyFunc)
    (l : List (String × StrategyFunc)) (kv : String × StrategyFunc)
    (hkv : kv ∈ l) (hne : kv.1 ≠ id) :
    kv ∈ register_strategy id f l := by
  unfold register_strategy
  split_ifs with h
  · refine List.mem_map.mpr ⟨kv, hkv, ?_⟩
    rw [if_neg hne]
  · exact List.mem_append.mpr (Or.inl hkv)

lemma dispatch_from_ok (t : Tick) (ps : List Position) :
    ∀ (strats : List (String × StrategyFunc)),
      (∀ kv ∈ strats, ∃ r, kv.2 t (strategy_positions ps kv.1) = .ok r) →
      ∀ acc, dispatch_from strats ps t acc =
        .ok (acc ++ strats.filterMap (fun kv =>
          (ok_signal (kv.2 t (strategy_positions ps kv.1))).map
            (fun s => (kv.1, s)))) := by
  intro strats
  induction strats with
  | nil =>
    intro _ acc
    simp [dispatch_from]
  | cons kv rest ih =>
    intro hok acc
    rcases hok kv (List.mem_cons_self kv rest) with ⟨r, hr⟩
    have hrest : ∀ kv2 ∈ rest, ∃ r, kv2.2 t (strategy_positions ps kv2.1) = .ok r :=
      fun kv2 hkv2 => hok kv2 (List.mem_cons_of_mem kv hkv2)
    cases r with
    | none =>
      simp only [dispatch_from, hr, List.filterMap_cons]
      rw [ih hrest acc]
      simp [ok_signal, hr]
    | some sig =>
      simp only [dispatch_from, hr, List.filterMap_cons]
      rw [ih hrest (acc ++ [(kv.1, sig)])]
      simp [ok_signal, hr]

/-- C9: re-registering an existing identifier keeps the key order (its
original slot) while a new identifier is appended; the replacing pair is
present and all other pairs survive; and for non-raising evaluators,
dispatch returns exactly the strategies whose evaluator produced a
signal, paired with that signal, in registration order — a function of
the inputs alone, hence deterministic across repeated calls. -/
theorem registration_order_and_dispatch_determinism
    (l : List (String × StrategyFunc)) (id : String) (f : StrategyFunc)
    (strats : List (String × StrategyFunc)) (ps : List Position) (t : Tick)
    (hok : ∀ kv ∈ strats, ∃ r, kv.2 t (strategy_positions ps kv.1) = .ok r) :
    ((register_strategy id f l).map Prod.fst =
      if id ∈ l.map Prod.fst then l.map Prod.fst
      else l.map Prod.fst ++ [id]) ∧
    (id, f) ∈ register_strategy id f l ∧
    (∀ kv ∈ l, kv.1 ≠ id → kv ∈ register_strategy id f l) ∧
    process_tick strats ps t =
      .ok (strats.filterMap (fun kv =>
        (ok_signal (kv.2 t (strategy_positions ps kv.1))).map
          (fun s => (kv.1, s)))) := by
  refine ⟨register_strategy_keys id f l, register_strategy_mem id f l,
    fun kv hkv hne => register_strategy_other id f l kv hkv hne, ?_⟩
  have h := dispatch_from_ok t ps strats hok []
  simpa [process_tick] using h

/-- Witness for C9: strategies `A` then `B` registered in that order, a
tick on which only `B` signals — dispatch returns exactly
`[("B", Buy-signal)]`. -/
theorem registration_order_and_dispatch_determinism_witness :
    process_tick stratsAB [] tickX =
      .ok (stratsAB.filterMap (fun kv =>
        (ok_signal (kv.2 tickX (strategy_positions [] kv.1))).map
          (fun s => (kv.1, s)))) ∧
    stratsAB.filterMap (fun kv =>
      (ok_signal (kv.2 tickX (strategy_positions [] kv.1))).map
        (fun s => (kv.1, s))) = [("B", { action := "BUY", size := 1 })] :=
  ⟨(registration_order_and_dispatch_determinism [] "Z" noneEval stratsAB [] tickX
    (by
      intro kv hkv
      have hcases : kv = ("A", noneEval) ∨ kv = ("B", buyEval) := by
        simpa [stratsAB, register_strategy] using hkv
      rcases hcases with rfl | rfl
      · exact ⟨none, rfl⟩
      · exact ⟨some { action := "BUY", size := 1 }, rfl⟩)).2.2.2, rfl⟩

/-! ### Claim C10 -/

/-- C10: exit evaluation is not total over reachable states.  The first
(valid) tick on instrument `A` opens `posA` with no current price; the
next valid tick, on instrument `B`, leaves `posA`'s price unset, and
`evaluate_exit_conditions` then hits the `None` arithmetic — so
`process_tick_data` fails even though both input ticks are valid. -/
theorem unset_price_crash :
    process_tick_data [("s", openEvalA)] (1/2) rawA st0 = .ok (stA, mA) ∧
    posA.current_price = none ∧
    process_tick_data [("s", openEvalA)] (1/2) rawB stA =
      .error "unsupported operand type for NoneType" :=
  ⟨process_rawA, rfl, rfl⟩

end DataScience
